import Mathlib

/-!
Shallow embedding of the column-layout (tabulation) engine of `listare`
(`src/tabulate.rs`), together with the `CharacterLength` instance for the
directory-entry type (`src/lib.rs`).  Machine integers (`usize`) are modelled
as `Nat`; every subtraction in the source is performed on values the source
guarantees non-negative, and the safety theorems below establish the
corresponding bounds.  Fallible slice indexing (`col_widths[col_idx]`,
`configs.remove(position)`) is modelled with `List.getD`; the safety theorems
show the indices are in bounds, so the defaults are never consulted on the
executions the source performs.
-/

/-- `enum TabulateOrientation { Columns, Rows }` from `src/tabulate.rs`. -/
inductive TabulateOrientation where
  | Columns : TabulateOrientation
  | Rows : TabulateOrientation
deriving Repr, DecidableEq

/-- `struct ColumnConfiguration` from `src/tabulate.rs`. -/
structure ColumnConfiguration where
  num_columns : Nat
  col_widths : List Nat
  line_len : Nat
  valid : Bool
deriving Repr, DecidableEq

/-- `enum ConfigError { EmptyData }` from `src/tabulate.rs`. -/
inductive ConfigError where
  | EmptyData : ConfigError
deriving Repr, DecidableEq

/-- `const MIN_COLUMN_WIDTH: usize = 3` from `Tabulator::get_column_config`. -/
def MIN_COLUMN_WIDTH : Nat := 3

/-- `fn init_column_configs` from `src/tabulate.rs`: one configuration per
column count in `1..=min(max(1, max_line_length / min_col_width), num_items)`,
each starting with every column at the minimum width. -/
def init_column_configs (max_line_length num_items min_col_width : Nat) :
    List ColumnConfiguration :=
  let max_columns := max 1 (max_line_length / min_col_width)
  let max_columns := min max_columns num_items
  (List.range' 1 max_columns).map (fun num_columns =>
    { num_columns := num_columns
      col_widths := List.replicate num_columns min_col_width
      line_len := num_columns * min_col_width
      valid := true })

/-- The column index the scan assigns to the item at linear index `file_idx`,
from the `match self.orientation` expression in `Tabulator::get_column_config`
(`n` is `self.data.len()`). -/
def colIdx (orient : TabulateOrientation) (n file_idx num_columns : Nat) : Nat :=
  match orient with
  | TabulateOrientation.Rows => file_idx % num_columns
  | TabulateOrientation.Columns => file_idx / ((n + num_columns - 1) / num_columns)

/-- The body of the inner `for config in configs` loop of
`Tabulator::get_column_config`: skip invalid configurations, otherwise grow
the item's column to its real length (display width plus a 2-character
separator except in the last column) and re-check the budget.
`p` is the `(file_idx, entry)` pair produced by `enumerate()` and `len` is the
`CharacterLength::characters_long` method of the item type. -/
def updateConfig (len : α → Nat) (max_line_length : Nat)
    (orient : TabulateOrientation) (n : Nat) (p : Nat × α)
    (config : ColumnConfiguration) : ColumnConfiguration :=
  if !config.valid then config
  else
    let col_idx := colIdx orient n p.1 config.num_columns
    let real_len := len p.2 + (if col_idx = config.num_columns - 1 then 0 else 2)
    if config.col_widths.getD col_idx 0 < real_len then
      let new_line_len := config.line_len + (real_len - config.col_widths.getD col_idx 0)
      { num_columns := config.num_columns
        col_widths := config.col_widths.set col_idx real_len
        line_len := new_line_len
        valid := decide (new_line_len < max_line_length) }
    else config

/-- Index of the last element satisfying `p`, i.e. `Iterator::rposition`. -/
def rposition (p : α → Bool) : List α → Option Nat
  | [] => none
  | a :: l =>
    match rposition p l with
    | some i => some (i + 1)
    | none => if p a then some 0 else none

/-- The state of the candidate list after the outer
`for (file_idx, entry) in self.data.iter().enumerate()` loop of
`Tabulator::get_column_config` has scanned every item. -/
def final_configs (len : α → Nat) (data : List α) (max_line_length : Nat)
    (orient : TabulateOrientation) : List ColumnConfiguration :=
  data.enum.foldl
    (fun cfgs p => cfgs.map (updateConfig len max_line_length orient data.length p))
    (init_column_configs max_line_length data.length MIN_COLUMN_WIDTH)

/-- A placeholder configuration for the (never consulted, see the safety
theorems) out-of-bounds default of `configs.remove(position)`. -/
def dummyConfig : ColumnConfiguration :=
  { num_columns := 0, col_widths := [], line_len := 0, valid := false }

/-- `Tabulator::get_column_config` from `src/tabulate.rs`: error on empty
data, otherwise scan every item against every candidate and extract the
candidate at `rposition(valid).unwrap_or(0)`. -/
def get_column_config (len : α → Nat) (data : List α) (max_line_length : Nat)
    (orient : TabulateOrientation) : Except ConfigError ColumnConfiguration :=
  if data.isEmpty then Except.error ConfigError.EmptyData
  else
    let configs := final_configs len data max_line_length orient
    let position := (rposition (fun config => config.valid) configs).getD 0
    Except.ok (configs.getD position dummyConfig)

/-- The row count computed by `<Tabulator as Display>::fmt`:
`data.len() / num_columns + if data.len() % num_columns != 0 { 1 } else { 0 }`. -/
def rowsFor (n num_columns : Nat) : Nat :=
  n / num_columns + (if n % num_columns ≠ 0 then 1 else 0)

/-- The linear index of the cell at `(row, col)`, from the
`match self.orientation` expression in `<Tabulator as Display>::fmt`. -/
def renderIdx (orient : TabulateOrientation) (rows num_columns row col : Nat) : Nat :=
  match orient with
  | TabulateOrientation.Rows => row * num_columns + col
  | TabulateOrientation.Columns => row + col * rows

/-- The sequence of item indices emitted by the nested
`for row in 0..rows { for col in 0..config.num_columns { ... } }` loops of
`<Tabulator as Display>::fmt`: a cell emits its item exactly when its linear
index is in bounds. -/
def emitted_indices (n rows num_columns : Nat) (orient : TabulateOrientation) :
    List Nat :=
  (List.range rows).flatMap (fun row =>
    (List.range num_columns).filterMap (fun col =>
      let idx := renderIdx orient rows num_columns row col
      if idx < n then some idx else none))

/-- `<Tabulator as Display>::fmt` from `src/tabulate.rs`, producing the
written text.  `pad` is the width-directed rendering of a single entry
(`write!(f, "{:width$}", entry)` forwards the width to the entry's `Display`
implementation); the writer itself never fails in this model, matching the
source which only propagates the formatter's own errors. -/
def tabulator_fmt (len : α → Nat) (pad : α → Nat → String) (data : List α)
    (max_line_length : Nat) (orient : TabulateOrientation) : String :=
  match get_column_config len data max_line_length orient with
  | Except.error ConfigError.EmptyData => ""
  | Except.ok config =>
    let n := data.length
    let rows := rowsFor n config.num_columns
    String.join ((List.range rows).map (fun row =>
      String.join ((List.range config.num_columns).map (fun col =>
        let idx := renderIdx orient rows config.num_columns row col
        if idx < n then
          match data.get? idx with
          | some entry => pad entry (config.col_widths.getD col 0)
          | none => ""
        else ""))
      ++ (if row < rows - 1 then "\n" else "")))

/-- The directory-entry type of `src/lib.rs`, restricted to the one field the
tabulation engine's `CharacterLength` instance reads (`metadata` and `path`
are filesystem handles irrelevant to layout). -/
structure EntryData where
  name : String
deriving Repr, DecidableEq

/-- `impl tabulate::CharacterLength for EntryData` from `src/lib.rs`:
`self.name.chars().count()`, the number of Unicode characters of the name. -/
def EntryData.characters_long (e : EntryData) : Nat :=
  e.name.length

/-! ### Helper lemmas about the scan -/

/-- The evolution of a single candidate configuration across a list of
enumerated items: because the inner loop updates each configuration
independently, the whole scan is this fold applied to each candidate. -/
def evolveConfig (len : α → Nat) (max_line_length : Nat)
    (orient : TabulateOrientation) (n : Nat) (items : List (Nat × α))
    (config : ColumnConfiguration) : ColumnConfiguration :=
  items.foldl (fun c p => updateConfig len max_line_length orient n p c) config

theorem foldl_map_comm (steps : List σ) (u : σ → C → C) (configs : List C) :
    steps.foldl (fun cs s => cs.map (u s)) configs =
      configs.map (fun c => steps.foldl (fun c s => u s c) c) := by
  induction steps generalizing configs with
  | nil => simp
  | cons s steps ih =>
    simp only [List.foldl_cons, ih, List.map_map]
    rfl

theorem final_configs_eq_map (len : α → Nat) (data : List α)
    (max_line_length : Nat) (orient : TabulateOrientation) :
    final_configs len data max_line_length orient =
      (init_column_configs max_line_length data.length MIN_COLUMN_WIDTH).map
        (evolveConfig len max_line_length orient data.length data.enum) := by
  unfold final_configs evolveConfig
  exact foldl_map_comm _ _ _

theorem updateConfig_of_invalid (len : α → Nat) (max_line_length : Nat)
    (orient : TabulateOrientation) (n : Nat) (p : Nat × α)
    (config : ColumnConfiguration) (h : config.valid = false) :
    updateConfig len max_line_length orient n p config = config := by
  unfold updateConfig
  simp [h]

theorem evolveConfig_of_invalid (len : α → Nat) (max_line_length : Nat)
    (orient : TabulateOrientation) (n : Nat) (items : List (Nat × α))
    (config : ColumnConfiguration) (h : config.valid = false) :
    evolveConfig len max_line_length orient n items config = config := by
  induction items with
  | nil => rfl
  | cons p items ih =>
    unfold evolveConfig
    simp only [List.foldl_cons, updateConfig_of_invalid len _ _ _ _ _ h]
    exact ih

theorem updateConfig_num_columns (len : α → Nat) (max_line_length : Nat)
    (orient : TabulateOrientation) (n : Nat) (p : Nat × α)
    (config : ColumnConfiguration) :
    (updateConfig len max_line_length orient n p config).num_columns =
      config.num_columns := by
  unfold updateConfig
  dsimp only
  repeat' split
  all_goals rfl

theorem updateConfig_col_widths_length (len : α → Nat) (max_line_length : Nat)
    (orient : TabulateOrientation) (n : Nat) (p : Nat × α)
    (config : ColumnConfiguration) :
    (updateConfig len max_line_length orient n p config).col_widths.length =
      config.col_widths.length := by
  unfold updateConfig
  dsimp only
  repeat' split
  all_goals simp

theorem evolveConfig_num_columns (len : α → Nat) (max_line_length : Nat)
    (orient : TabulateOrientation) (n : Nat) (items : List (Nat × α))
    (config : ColumnConfiguration) :
    (evolveConfig len max_line_length orient n items config).num_columns =
      config.num_columns := by
  induction items generalizing config with
  | nil => rfl
  | cons p items ih =>
    unfold evolveConfig
    simp only [List.foldl_cons]
    exact (ih _).trans (updateConfig_num_columns _ _ _ _ _ _)

theorem evolveConfig_col_widths_length (len : α → Nat) (max_line_length : Nat)
    (orient : TabulateOrientation) (n : Nat) (items : List (Nat × α))
    (config : ColumnConfiguration) :
    (evolveConfig len max_line_length orient n items config).col_widths.length =
      config.col_widths.length := by
  induction items generalizing config with
  | nil => rfl
  | cons p items ih =>
    unfold evolveConfig
    simp only [List.foldl_cons]
    exact (ih _).trans (updateConfig_col_widths_length _ _ _ _ _ _)

/-! ### Facts about `init_column_configs` -/

theorem init_length (max_line_length num_items min_col_width : Nat) :
    (init_column_configs max_line_length num_items min_col_width).length =
      min (max 1 (max_line_length / min_col_width)) num_items := by
  unfold init_column_configs
  simp [List.length_range']

theorem init_getElem (max_line_length num_items min_col_width i : Nat)
    (h : i < (init_column_configs max_line_length num_items min_col_width).length) :
    (init_column_configs max_line_length num_items min_col_width)[i] =
      { num_columns := 1 + i
        col_widths := List.replicate (1 + i) min_col_width
        line_len := (1 + i) * min_col_width
        valid := true } := by
  unfold init_column_configs
  unfold init_column_configs at h
  simp only [List.getElem_map, List.getElem_range']
  simp

/-! ### Facts about `rposition` -/

theorem rposition_none (p : α → Bool) (l : List α) (d : α)
    (h : rposition p l = none) :
    ∀ j, j < l.length → p (l.getD j d) = false := by
  induction l with
  | nil => intro j hj; simp at hj
  | cons a l ih =>
    unfold rposition at h
    rcases hr : rposition p l with _ | k
    · rw [hr] at h
      rcases hp : p a
      · intro j hj
        rcases j with _ | j
        · simpa using hp
        · exact ih (by rw [hr]) j (by simpa using hj)
      · simp [hp] at h
    · rw [hr] at h
      simp at h

theorem rposition_some (p : α → Bool) (l : List α) (i : Nat) (d : α)
    (h : rposition p l = some i) :
    i < l.length ∧ p (l.getD i d) = true ∧
      ∀ j, j < l.length → i < j → p (l.getD j d) = false := by
  induction l generalizing i with
  | nil => simp [rposition] at h
  | cons a l ih =>
    unfold rposition at h
    rcases hr : rposition p l with _ | k
    · rw [hr] at h
      rcases hp : p a
      · simp [hp] at h
      · simp [hp] at h
        subst h
        refine ⟨by simp, by simpa using hp, ?_⟩
        intro j hj hij
        rcases j with _ | j
        · omega
        · simp only [List.getD_cons_succ]
          exact rposition_none p l d hr j (by simpa using hj)
    · rw [hr] at h
      injection h with h
      subst h
      obtain ⟨hk, hpk, hrest⟩ := ih k hr
      refine ⟨by simpa using Nat.succ_lt_succ hk, by simpa using hpk, ?_⟩
      intro j hj hij
      rcases j with _ | j
      · omega
      · simp only [List.getD_cons_succ]
        exact hrest j (by simpa using hj) (by omega)

theorem final_configs_length (len : α → Nat) (data : List α)
    (max_line_length : Nat) (orient : TabulateOrientation) :
    (final_configs len data max_line_length orient).length =
      min (max 1 (max_line_length / MIN_COLUMN_WIDTH)) data.length := by
  rw [final_configs_eq_map]
  rw [List.length_map, init_length]

theorem final_configs_num_columns (len : α → Nat) (data : List α)
    (max_line_length : Nat) (orient : TabulateOrientation) (i : Nat)
    (h : i < (final_configs len data max_line_length orient).length) :
    ((final_configs len data max_line_length orient).getD i dummyConfig).num_columns =
      1 + i := by
  rw [List.getD_eq_getElem _ _ h]
  rw [List.getElem_of_eq (final_configs_eq_map len data max_line_length orient) h]
  rw [List.getElem_map, evolveConfig_num_columns, init_getElem]

/-- C7: for `n ≥ 1` items and budget `m`, the candidate list built by the
search holds exactly one configuration per column count from `1` up to
`min(max(1, m / MIN_COLUMN_WIDTH), n)` inclusive; in particular no candidate
has more columns than there are items, and with 10 items and `m = 9` exactly
the column counts 1, 2, 3 are tried. -/
theorem candidate_column_counts (max_line_length num_items : Nat)
    (h : 1 ≤ num_items) :
    ((init_column_configs max_line_length num_items MIN_COLUMN_WIDTH).map
        (fun config => config.num_columns) =
      List.range' 1 (min (max 1 (max_line_length / MIN_COLUMN_WIDTH)) num_items))
    ∧ (∀ config ∈ init_column_configs max_line_length num_items MIN_COLUMN_WIDTH,
        1 ≤ config.num_columns ∧ config.num_columns ≤ num_items)
    ∧ ((init_column_configs 9 10 MIN_COLUMN_WIDTH).map
        (fun config => config.num_columns) = [1, 2, 3]) := by
  refine ⟨?_, ?_, by decide⟩
  · unfold init_column_configs
    simp [List.map_map, Function.comp_def]
  · intro config hc
    unfold init_column_configs at hc
    simp only [List.mem_map, List.mem_range'] at hc
    obtain ⟨x, hx, rfl⟩ := hc
    obtain ⟨i, hi, rfl⟩ := hx
    simp only
    omega

/-- Witness for `candidate_column_counts` at `max_line_length = 9`,
`num_items = 10`. -/
theorem candidate_column_counts_witness :
    ((init_column_configs 9 10 MIN_COLUMN_WIDTH).map
        (fun config => config.num_columns) =
      List.range' 1 (min (max 1 (9 / MIN_COLUMN_WIDTH)) 10))
    ∧ (∀ config ∈ init_column_configs 9 10 MIN_COLUMN_WIDTH,
        1 ≤ config.num_columns ∧ config.num_columns ≤ 10)
    ∧ ((init_column_configs 9 10 MIN_COLUMN_WIDTH).map
        (fun config => config.num_columns) = [1, 2, 3]) :=
  candidate_column_counts 9 10 (by decide)

/-- C8: the search's scan evolves every candidate independently
(`final_configs` is the independent per-candidate fold), and once a
candidate's `valid` flag is false, the very next item and every later item
leave the candidate completely unchanged — flag, `col_widths` and `line_len`
included. -/
theorem invalid_is_permanent (len : α → Nat) (data : List α)
    (max_line_length : Nat) (orient : TabulateOrientation) (n : Nat)
    (p : Nat × α) (items : List (Nat × α)) (config : ColumnConfiguration)
    (h : config.valid = false) :
    (final_configs len data max_line_length orient =
      (init_column_configs max_line_length data.length MIN_COLUMN_WIDTH).map
        (evolveConfig len max_line_length orient data.length data.enum))
    ∧ updateConfig len max_line_length orient n p config = config
    ∧ evolveConfig len max_line_length orient n items config = config :=
  ⟨final_configs_eq_map len data max_line_length orient,
   updateConfig_of_invalid len max_line_length orient n p config h,
   evolveConfig_of_invalid len max_line_length orient n items config h⟩

/-- Witness for `invalid_is_permanent` on a concrete invalidated
configuration. -/
theorem invalid_is_permanent_witness :
    (final_configs (fun w => w) [1, 2] 10 TabulateOrientation.Rows =
      (init_column_configs 10 ([1, 2] : List Nat).length MIN_COLUMN_WIDTH).map
        (evolveConfig (fun w => w) 10 TabulateOrientation.Rows
          ([1, 2] : List Nat).length ([1, 2] : List Nat).enum))
    ∧ updateConfig (fun w => w) 10 TabulateOrientation.Rows 2 (0, 7)
        ⟨2, [3, 3], 6, false⟩ = ⟨2, [3, 3], 6, false⟩
    ∧ evolveConfig (fun w => w) 10 TabulateOrientation.Rows 2 [(0, 7), (1, 9)]
        ⟨2, [3, 3], 6, false⟩ = ⟨2, [3, 3], 6, false⟩ :=
  invalid_is_permanent (fun w => w) [1, 2] 10 TabulateOrientation.Rows 2
    (0, 7) [(0, 7), (1, 9)] ⟨2, [3, 3], 6, false⟩ rfl

/-! ### The width-bound invariant -/

theorem updateConfig_width_inv (len : α → Nat) (max_line_length : Nat)
    (orient : TabulateOrientation) (n : Nat) (p : Nat × α)
    (config : ColumnConfiguration)
    (h : config.valid = true →
      config.line_len < max_line_length ∨
        config.line_len = config.num_columns * MIN_COLUMN_WIDTH) :
    (updateConfig len max_line_length orient n p config).valid = true →
      (updateConfig len max_line_length orient n p config).line_len < max_line_length ∨
        (updateConfig len max_line_length orient n p config).line_len =
          (updateConfig len max_line_length orient n p config).num_columns *
            MIN_COLUMN_WIDTH := by
  unfold updateConfig
  dsimp only
  repeat' split
  all_goals first
    | exact h
    | (intro hv; exact Or.inl (of_decide_eq_true hv))

theorem evolveConfig_width_inv (len : α → Nat) (max_line_length : Nat)
    (orient : TabulateOrientation) (n : Nat) (items : List (Nat × α))
    (config : ColumnConfiguration)
    (h : config.valid = true →
      config.line_len < max_line_length ∨
        config.line_len = config.num_columns * MIN_COLUMN_WIDTH) :
    (evolveConfig len max_line_length orient n items config).valid = true →
      (evolveConfig len max_line_length orient n items config).line_len <
          max_line_length ∨
        (evolveConfig len max_line_length orient n items config).line_len =
          (evolveConfig len max_line_length orient n items config).num_columns *
            MIN_COLUMN_WIDTH := by
  induction items generalizing config with
  | nil => exact h
  | cons p items ih =>
    unfold evolveConfig
    simp only [List.foldl_cons]
    exact ih _ (updateConfig_width_inv len max_line_length orient n p config h)

theorem final_configs_width_inv (len : α → Nat) (data : List α)
    (max_line_length : Nat) (orient : TabulateOrientation)
    (config : ColumnConfiguration)
    (hc : config ∈ final_configs len data max_line_length orient) :
    config.valid = true →
      config.line_len < max_line_length ∨
        config.line_len = config.num_columns * MIN_COLUMN_WIDTH := by
  rw [final_configs_eq_map] at hc
  obtain ⟨c0, hc0, rfl⟩ := List.mem_map.mp hc
  obtain ⟨i, hi, rfl⟩ := List.mem_iff_getElem.mp hc0
  refine evolveConfig_width_inv _ _ _ _ _ _ ?_
  rw [init_getElem _ _ _ _ hi]
  intro _
  exact Or.inr rfl

theorem selected_mem (len : α → Nat) (data : List α) (max_line_length : Nat)
    (orient : TabulateOrientation) (hne : data ≠ []) :
    get_column_config len data max_line_length orient =
      Except.ok ((final_configs len data max_line_length orient).getD
        ((rposition (fun config => config.valid)
          (final_configs len data max_line_length orient)).getD 0) dummyConfig)
    ∧ (rposition (fun config => config.valid)
        (final_configs len data max_line_length orient)).getD 0 <
      (final_configs len data max_line_length orient).length := by
  constructor
  · unfold get_column_config
    rw [if_neg (by simpa using hne)]
  · have hlen : 1 ≤ (final_configs len data max_line_length orient).length := by
      rw [final_configs_length]
      have : 1 ≤ data.length := List.length_pos.mpr hne
      omega
    rcases hr : rposition (fun config => config.valid)
        (final_configs len data max_line_length orient) with _ | i
    · rw [hr]
      simpa using hlen
    · rw [hr]
      simpa using (rposition_some _ _ i dummyConfig hr).1

/-- C1 counterexample: two items of width 1 with `max_line_length = 6` make
the search select the 2-column candidate (not the single-column fallback)
with `valid = true` and `line_len = 6`, which is not strictly less than
`max_line_length`. -/
theorem width_bound_counterexample :
    get_column_config (fun w => w) [1, 1] 6 TabulateOrientation.Columns =
      Except.ok ⟨2, [3, 3], 6, true⟩
    ∧ ¬((6 : Nat) < 6) :=
  ⟨rfl, by decide⟩

/-- C1 (amended): a selected configuration whose `valid` flag is true has
`line_len < max_line_length` unless it was never grown past its initial
size, in which case `line_len = num_columns * MIN_COLUMN_WIDTH` (which may
equal, or for budgets below the minimum width exceed, `max_line_length`). -/
theorem width_bound_amended (len : α → Nat) (data : List α)
    (max_line_length : Nat) (orient : TabulateOrientation)
    (config : ColumnConfiguration)
    (h : get_column_config len data max_line_length orient = Except.ok config)
    (hv : config.valid = true) :
    config.line_len < max_line_length ∨
      config.line_len = config.num_columns * MIN_COLUMN_WIDTH := by
  have hne : data ≠ [] := by
    intro hd
    subst hd
    simp [get_column_config] at h
  obtain ⟨hok, hpos⟩ := selected_mem len data max_line_length orient hne
  rw [hok] at h
  injection h with h
  subst h
  refine final_configs_width_inv len data max_line_length orient _ ?_ hv
  rw [List.getD_eq_getElem _ _ hpos]
  exact List.getElem_mem hpos

/-- Witness for `width_bound_amended`: a single item of width 5 with budget
10 selects the grown single-column configuration. -/
theorem width_bound_amended_witness :
    (⟨1, [5], 5, true⟩ : ColumnConfiguration).line_len < 10 ∨
      (⟨1, [5], 5, true⟩ : ColumnConfiguration).line_len =
        (⟨1, [5], 5, true⟩ : ColumnConfiguration).num_columns * MIN_COLUMN_WIDTH :=
  width_bound_amended (fun w => w) [5] 10 TabulateOrientation.Columns
    ⟨1, [5], 5, true⟩ rfl rfl

/-- C2: the search always produces a configuration for non-empty data,
drawn from the scanned candidate list; when some candidate is still valid,
the selected one is valid and has the greatest `num_columns` among all valid
candidates; when no candidate is valid, the selected one is the 1-column
candidate regardless of its validity flag. -/
theorem max_columns_selection (len : α → Nat) (data : List α)
    (max_line_length : Nat) (orient : TabulateOrientation) (hne : data ≠ []) :
    ∃ config,
      get_column_config len data max_line_length orient = Except.ok config
      ∧ config ∈ final_configs len data max_line_length orient
      ∧ ((∃ c ∈ final_configs len data max_line_length orient,
            c.valid = true) →
          config.valid = true ∧
            ∀ c ∈ final_configs len data max_line_length orient,
              c.valid = true → c.num_columns ≤ config.num_columns)
      ∧ ((∀ c ∈ final_configs len data max_line_length orient,
            c.valid = false) →
          config.num_columns = 1) := by
  obtain ⟨hok, hpos⟩ := selected_mem len data max_line_length orient hne
  refine ⟨_, hok, ?_, ?_, ?_⟩
  · rw [List.getD_eq_getElem _ _ hpos]
    exact List.getElem_mem hpos
  · rcases hr : rposition (fun config => config.valid)
        (final_configs len data max_line_length orient) with _ | i
    · intro hex
      obtain ⟨c, hc, hcv⟩ := hex
      obtain ⟨j, hj, rfl⟩ := List.mem_iff_getElem.mp hc
      have := rposition_none (fun config => config.valid) _ dummyConfig hr j hj
      rw [List.getD_eq_getElem _ _ hj] at this
      simp only [this] at hcv
      exact absurd hcv (by simp)
    · intro _
      obtain ⟨hi, hpi, hrest⟩ := rposition_some (fun config => config.valid)
        (final_configs len data max_line_length orient) i dummyConfig hr
      rw [hr]
      constructor
      · simpa using hpi
      · intro c hc hcv
        obtain ⟨j, hj, rfl⟩ := List.mem_iff_getElem.mp hc
        have hji : j ≤ i := by
          by_contra hgt
          have := hrest j hj (by omega)
          rw [List.getD_eq_getElem _ _ hj] at this
          simp only [this] at hcv
          exact absurd hcv (by simp)
        have h1 : ((final_configs len data max_line_length orient).getD j
            dummyConfig).num_columns = 1 + j :=
          final_configs_num_columns len data max_line_length orient j hj
        have h2 : ((final_configs len data max_line_length orient).getD
            ((some i).getD 0) dummyConfig).num_columns = 1 + i := by
          simpa using final_configs_num_columns len data max_line_length orient i hi
        rw [List.getD_eq_getElem _ _ hj] at h1
        rw [h1, h2]
        omega
  · intro hall
    rcases hr : rposition (fun config => config.valid)
        (final_configs len data max_line_length orient) with _ | i
    · rw [hr]
      have h0 : ((rposition (fun config => config.valid)
          (final_configs len data max_line_length orient)).getD 0) = 0 := by
        rw [hr]; rfl
      have := final_configs_num_columns len data max_line_length orient 0
        (by rw [← h0]; exact hpos)
      simpa using this
    · obtain ⟨hi, hpi, _⟩ := rposition_some (fun config => config.valid)
        (final_configs len data max_line_length orient) i dummyConfig hr
      rw [List.getD_eq_getElem _ _ hi] at hpi
      have := hall _ (List.getElem_mem hi)
      rw [this] at hpi
      exact absurd hpi (by simp)

/-- Witness for `max_columns_selection` on two width-1 items with budget 6. -/
theorem max_columns_selection_witness :
    ∃ config,
      get_column_config (fun w => w) [1, 1] 6 TabulateOrientation.Columns =
        Except.ok config
      ∧ config ∈ final_configs (fun w => w) [1, 1] 6 TabulateOrientation.Columns
      ∧ ((∃ c ∈ final_configs (fun w => w) [1, 1] 6 TabulateOrientation.Columns,
            c.valid = true) →
          config.valid = true ∧
            ∀ c ∈ final_configs (fun w => w) [1, 1] 6 TabulateOrientation.Columns,
              c.valid = true → c.num_columns ≤ config.num_columns)
      ∧ ((∀ c ∈ final_configs (fun w => w) [1, 1] 6 TabulateOrientation.Columns,
            c.valid = false) →
          config.num_columns = 1) :=
  max_columns_selection (fun w => w) [1, 1] 6 TabulateOrientation.Columns
    (by decide)

/-! ### Ceiling-division arithmetic for the row count -/

theorem rowsFor_eq_ceil (n num_columns : Nat) (hc : 1 ≤ num_columns) :
    rowsFor n num_columns = (n + num_columns - 1) / num_columns := by
  unfold rowsFor
  have hdm : n / num_columns * num_columns + n % num_columns = n :=
    Nat.div_add_mod' n num_columns
  have hmlt : n % num_columns < num_columns := Nat.mod_lt _ (by omega)
  rcases Nat.eq_zero_or_pos (n % num_columns) with hz | hpos
  · rw [if_neg (by omega)]
    symm
    apply Nat.div_eq_of_lt_le
    · have e : (n / num_columns + 0) * num_columns =
          n / num_columns * num_columns := by ring
      rw [e]
      omega
    · have e : (n / num_columns + 0 + 1) * num_columns =
          n / num_columns * num_columns + num_columns := by ring
      rw [e]
      omega
  · rw [if_pos (by omega)]
    symm
    apply Nat.div_eq_of_lt_le
    · have e : (n / num_columns + 1) * num_columns =
          n / num_columns * num_columns + num_columns := by ring
      rw [e]
      omega
    · have e : (n / num_columns + 1 + 1) * num_columns =
          n / num_columns * num_columns + num_columns + num_columns := by ring
      rw [e]
      omega

theorem le_rowsFor_mul (n num_columns : Nat) (hc : 1 ≤ num_columns) :
    n ≤ rowsFor n num_columns * num_columns := by
  unfold rowsFor
  have hdm : n / num_columns * num_columns + n % num_columns = n :=
    Nat.div_add_mod' n num_columns
  have hmlt : n % num_columns < num_columns := Nat.mod_lt _ (by omega)
  rcases Nat.eq_zero_or_pos (n % num_columns) with hz | hpos
  · rw [if_neg (by omega)]
    have e : (n / num_columns + 0) * num_columns =
        n / num_columns * num_columns := by ring
    rw [e]
    omega
  · rw [if_pos (by omega)]
    have e : (n / num_columns + 1) * num_columns =
        n / num_columns * num_columns + num_columns := by ring
    rw [e]
    omega

theorem one_le_rowsFor (n num_columns : Nat) (hn : 1 ≤ n) (hc : 1 ≤ num_columns) :
    1 ≤ rowsFor n num_columns := by
  unfold rowsFor
  have hdm : n / num_columns * num_columns + n % num_columns = n :=
    Nat.div_add_mod' n num_columns
  rcases Nat.eq_zero_or_pos (n % num_columns) with hz | hpos
  · rw [if_neg (by omega)]
    rcases Nat.eq_zero_or_pos (n / num_columns) with h0 | h
    · rw [h0] at hdm
      simp at hdm
      omega
    · omega
  · rw [if_pos (by omega)]
    exact Nat.le_add_left 1 (n / num_columns)

/-! ### Bounds on the column index -/

theorem colIdx_lt (orient : TabulateOrientation) (n num_columns i : Nat)
    (hn : 1 ≤ n) (hc : 1 ≤ num_columns) (hi : i < n) :
    colIdx orient n i num_columns < num_columns := by
  cases orient with
  | Rows => exact Nat.mod_lt _ (by omega)
  | Columns =>
    show i / ((n + num_columns - 1) / num_columns) < num_columns
    rw [← rowsFor_eq_ceil n num_columns hc]
    have hrows : 1 ≤ rowsFor n num_columns := one_le_rowsFor n num_columns hn hc
    rw [Nat.div_lt_iff_lt_mul (by omega)]
    have hle := le_rowsFor_mul n num_columns hc
    have e : num_columns * rowsFor n num_columns =
        rowsFor n num_columns * num_columns := Nat.mul_comm _ _
    omega

theorem final_configs_shape (len : α → Nat) (data : List α)
    (max_line_length : Nat) (orient : TabulateOrientation)
    (config : ColumnConfiguration)
    (hc : config ∈ final_configs len data max_line_length orient) :
    config.col_widths.length = config.num_columns ∧ 1 ≤ config.num_columns := by
  rw [final_configs_eq_map] at hc
  obtain ⟨c0, hc0, rfl⟩ := List.mem_map.mp hc
  obtain ⟨i, hi, rfl⟩ := List.mem_iff_getElem.mp hc0
  rw [evolveConfig_col_widths_length, evolveConfig_num_columns,
    init_getElem _ _ _ _ hi]
  simp

/-- C4: for both orientations, the column the search assigns to item `i`
(`i mod c` for Rows, `i div ceil(n/c)` for Columns) is a legal column and is
exactly the column at which the renderer emits item `i`: some render row
produces `i` at that column, and any render cell producing `i` lies in that
column — search and render use identical index math. -/
theorem search_render_column_agreement (orient : TabulateOrientation)
    (n num_columns i : Nat) (hn : 1 ≤ n) (hc : 1 ≤ num_columns) (hi : i < n) :
    colIdx orient n i num_columns < num_columns
    ∧ (∃ row, row < rowsFor n num_columns ∧
        renderIdx orient (rowsFor n num_columns) num_columns row
          (colIdx orient n i num_columns) = i)
    ∧ (∀ row col, row < rowsFor n num_columns → col < num_columns →
        renderIdx orient (rowsFor n num_columns) num_columns row col = i →
        col = colIdx orient n i num_columns) := by
  have hrows : 1 ≤ rowsFor n num_columns := one_le_rowsFor n num_columns hn hc
  have hle := le_rowsFor_mul n num_columns hc
  refine ⟨colIdx_lt orient n num_columns i hn hc hi, ?_, ?_⟩
  · cases orient with
    | Rows =>
      refine ⟨i / num_columns, ?_, ?_⟩
      · rw [Nat.div_lt_iff_lt_mul (by omega)]
        have e : rowsFor n num_columns * num_columns =
            num_columns * rowsFor n num_columns := Nat.mul_comm _ _
        omega
      · show i / num_columns * num_columns + i % num_columns = i
        exact Nat.div_add_mod' i num_columns
    | Columns =>
      refine ⟨i % rowsFor n num_columns, Nat.mod_lt _ (by omega), ?_⟩
      show i % rowsFor n num_columns +
          i / ((n + num_columns - 1) / num_columns) * rowsFor n num_columns = i
      rw [← rowsFor_eq_ceil n num_columns hc]
      exact Nat.mod_add_div' i (rowsFor n num_columns)
  · intro row col hrow hcol hidx
    cases orient with
    | Rows =>
      show col = i % num_columns
      rw [← hidx]
      show col = (row * num_columns + col) % num_columns
      rw [Nat.mul_comm row num_columns, Nat.mul_add_mod, Nat.mod_eq_of_lt hcol]
    | Columns =>
      show col = i / ((n + num_columns - 1) / num_columns)
      rw [← rowsFor_eq_ceil n num_columns hc, ← hidx]
      show col = (row + col * rowsFor n num_columns) / rowsFor n num_columns
      rw [Nat.add_mul_div_right _ _ (by omega : 0 < rowsFor n num_columns),
        Nat.div_eq_of_lt hrow]
      omega

/-- Witness for `search_render_column_agreement` at `n = 5`, `c = 2`,
`i = 3`, ColumnMajor orientation. -/
theorem search_render_column_agreement_witness :
    colIdx TabulateOrientation.Columns 5 3 2 < 2
    ∧ (∃ row, row < rowsFor 5 2 ∧
        renderIdx TabulateOrientation.Columns (rowsFor 5 2) 2 row
          (colIdx TabulateOrientation.Columns 5 3 2) = 3)
    ∧ (∀ row col, row < rowsFor 5 2 → col < 2 →
        renderIdx TabulateOrientation.Columns (rowsFor 5 2) 2 row col = 3 →
        col = colIdx TabulateOrientation.Columns 5 3 2) :=
  search_render_column_agreement TabulateOrientation.Columns 5 2 3
    (by decide) (by decide) (by decide)

/-- C9: on non-empty data, neither the search nor the renderer steps out of
bounds — every column index computed during the scan is strictly below the
candidate's column count (whose `col_widths` has exactly that length), the
ColumnMajor divisor `ceil(n/c)` is at least 1, the candidate list is
non-empty and the extraction index is within it so the search always
produces a configuration, and the renderer's row count is at least 1 so
`rows - 1` cannot underflow. -/
theorem scan_render_safety (len : α → Nat) (data : List α)
    (max_line_length : Nat) (orient : TabulateOrientation)
    (num_columns i : Nat) (hne : data ≠ [])
    (hc : 1 ≤ num_columns) (hi : i < data.length) :
    colIdx orient data.length i num_columns < num_columns
    ∧ 1 ≤ (data.length + num_columns - 1) / num_columns
    ∧ final_configs len data max_line_length orient ≠ []
    ∧ (rposition (fun config => config.valid)
        (final_configs len data max_line_length orient)).getD 0 <
      (final_configs len data max_line_length orient).length
    ∧ (∃ config, get_column_config len data max_line_length orient =
        Except.ok config)
    ∧ (∀ config ∈ final_configs len data max_line_length orient,
        config.col_widths.length = config.num_columns ∧ 1 ≤ config.num_columns)
    ∧ 1 ≤ rowsFor data.length num_columns := by
  have hn : 1 ≤ data.length := List.length_pos.mpr hne
  obtain ⟨hok, hpos⟩ := selected_mem len data max_line_length orient hne
  refine ⟨colIdx_lt orient data.length num_columns i hn hc hi, ?_, ?_, hpos,
    ⟨_, hok⟩, fun config hcfg => final_configs_shape len data max_line_length
      orient config hcfg, one_le_rowsFor data.length num_columns hn hc⟩
  · rw [← rowsFor_eq_ceil data.length num_columns hc]
    exact one_le_rowsFor data.length num_columns hn hc
  · intro hnil
    rw [hnil] at hpos
    simp at hpos

/-- Witness for `scan_render_safety` on one item of width 1, budget 5,
`c = 1`, `i = 0`. -/
theorem scan_render_safety_witness :
    colIdx TabulateOrientation.Columns ([1] : List Nat).length 0 1 < 1
    ∧ 1 ≤ (([1] : List Nat).length + 1 - 1) / 1
    ∧ final_configs (fun w => w) [1] 5 TabulateOrientation.Columns ≠ []
    ∧ (rposition (fun config => config.valid)
        (final_configs (fun w => w) [1] 5 TabulateOrientation.Columns)).getD 0 <
      (final_configs (fun w => w) [1] 5 TabulateOrientation.Columns).length
    ∧ (∃ config, get_column_config (fun w => w) [1] 5
        TabulateOrientation.Columns = Except.ok config)
    ∧ (∀ config ∈ final_configs (fun w => w) [1] 5 TabulateOrientation.Columns,
        config.col_widths.length = config.num_columns ∧ 1 ≤ config.num_columns)
    ∧ 1 ≤ rowsFor ([1] : List Nat).length 1 :=
  scan_render_safety (fun w => w) [1] 5 TabulateOrientation.Columns 1 0
    (by decide) (by decide) (by decide)

/-! ### The emitted cells of the renderer -/

theorem emitted_block_mem (orient : TabulateOrientation)
    (n rows num_columns row b : Nat)
    (hb : b ∈ (List.range num_columns).filterMap (fun col =>
      let idx := renderIdx orient rows num_columns row col
      if idx < n then some idx else none)) :
    ∃ col, col < num_columns ∧ renderIdx orient rows num_columns row col = b
      ∧ b < n := by
  obtain ⟨col, hcol, hsome⟩ := List.mem_filterMap.mp hb
  dsimp only at hsome
  by_cases hlt : renderIdx orient rows num_columns row col < n
  · rw [if_pos hlt] at hsome
    have hb' := Option.some.inj hsome
    exact ⟨col, List.mem_range.mp hcol, hb', by omega⟩
  · rw [if_neg hlt] at hsome
    exact absurd hsome (by simp)

theorem emitted_block_mem_of (orient : TabulateOrientation)
    (n rows num_columns row col : Nat) (hcol : col < num_columns)
    (hlt : renderIdx orient rows num_columns row col < n) :
    renderIdx orient rows num_columns row col ∈
      (List.range num_columns).filterMap (fun col =>
        let idx := renderIdx orient rows num_columns row col
        if idx < n then some idx else none) := by
  refine List.mem_filterMap.mpr ⟨col, List.mem_range.mpr hcol, ?_⟩
  dsimp only
  rw [if_pos hlt]

theorem mem_emitted_indices (orient : TabulateOrientation) (n num_columns : Nat)
    (hn : 1 ≤ n) (hc : 1 ≤ num_columns) (i : Nat) :
    i ∈ emitted_indices n (rowsFor n num_columns) num_columns orient ↔ i < n := by
  have hrows : 1 ≤ rowsFor n num_columns := one_le_rowsFor n num_columns hn hc
  have hle := le_rowsFor_mul n num_columns hc
  unfold emitted_indices
  constructor
  · intro h
    obtain ⟨row, _, hb⟩ := List.mem_flatMap.mp h
    obtain ⟨_, _, _, hlt⟩ := emitted_block_mem orient n _ num_columns row i hb
    exact hlt
  · intro hi
    cases orient with
    | Rows =>
      refine List.mem_flatMap.mpr ⟨i / num_columns, List.mem_range.mpr ?_, ?_⟩
      · rw [Nat.div_lt_iff_lt_mul (by omega)]
        have e : rowsFor n num_columns * num_columns =
            num_columns * rowsFor n num_columns := Nat.mul_comm _ _
        omega
      · have hidx : renderIdx TabulateOrientation.Rows (rowsFor n num_columns)
            num_columns (i / num_columns) (i % num_columns) = i :=
          Nat.div_add_mod' i num_columns
        have := emitted_block_mem_of TabulateOrientation.Rows n
          (rowsFor n num_columns) num_columns (i / num_columns)
          (i % num_columns) (Nat.mod_lt _ (by omega)) (by rw [hidx]; exact hi)
        rwa [hidx] at this
    | Columns =>
      refine List.mem_flatMap.mpr
        ⟨i % rowsFor n num_columns, List.mem_range.mpr (Nat.mod_lt _ (by omega)), ?_⟩
      have hidx : renderIdx TabulateOrientation.Columns (rowsFor n num_columns)
          num_columns (i % rowsFor n num_columns) (i / rowsFor n num_columns) = i :=
        Nat.mod_add_div' i (rowsFor n num_columns)
      have hcolb : i / rowsFor n num_columns < num_columns := by
        rw [Nat.div_lt_iff_lt_mul (by omega)]
        have e : rowsFor n num_columns * num_columns =
            num_columns * rowsFor n num_columns := Nat.mul_comm _ _
        omega
      have := emitted_block_mem_of TabulateOrientation.Columns n
        (rowsFor n num_columns) num_columns (i % rowsFor n num_columns)
        (i / rowsFor n num_columns) hcolb (by rw [hidx]; exact hi)
      rwa [hidx] at this

theorem emitted_indices_nodup (orient : TabulateOrientation)
    (n num_columns : Nat) (hn : 1 ≤ n) (hc : 1 ≤ num_columns) :
    (emitted_indices n (rowsFor n num_columns) num_columns orient).Nodup := by
  have hrows : 1 ≤ rowsFor n num_columns := one_le_rowsFor n num_columns hn hc
  unfold emitted_indices
  rw [List.nodup_flatMap]
  constructor
  · intro row _
    refine List.Nodup.filterMap ?_ (List.nodup_range _)
    intro a a' b hba hba'
    dsimp only at hba hba'
    by_cases ha : renderIdx orient (rowsFor n num_columns) num_columns row a < n
    · rw [if_pos ha] at hba
      by_cases ha' : renderIdx orient (rowsFor n num_columns) num_columns row a' < n
      · rw [if_pos ha'] at hba'
        have e1 := Option.mem_some_iff.mp hba
        have e2 := Option.mem_some_iff.mp hba'
        have e : renderIdx orient (rowsFor n num_columns) num_columns row a =
            renderIdx orient (rowsFor n num_columns) num_columns row a' := by
          rw [e1, e2]
        cases orient with
        | Rows =>
          simp only [renderIdx] at e
          omega
        | Columns =>
          simp only [renderIdx] at e
          have : a * rowsFor n num_columns = a' * rowsFor n num_columns := by omega
          exact Nat.eq_of_mul_eq_mul_right (by omega) this
      · rw [if_neg ha'] at hba'
        exact absurd hba' (by simp)
    · rw [if_neg ha] at hba
      exact absurd hba (by simp)
  · rw [List.pairwise_iff_getElem]
    intro r r' hr hr' hlt b hb hb'
    simp only [List.getElem_range] at hb hb'
    rw [List.length_range] at hr hr'
    obtain ⟨col, hcol, hidx, _⟩ := emitted_block_mem orient n _ num_columns r b hb
    obtain ⟨col', hcol', hidx', _⟩ := emitted_block_mem orient n _ num_columns r' b hb'
    cases orient with
    | Rows =>
      simp only [renderIdx] at hidx hidx'
      have h1 : b / num_columns = r := by
        rw [← hidx, Nat.mul_comm, Nat.mul_add_div (by omega),
          Nat.div_eq_of_lt hcol]
        omega
      have h2 : b / num_columns = r' := by
        rw [← hidx', Nat.mul_comm, Nat.mul_add_div (by omega),
          Nat.div_eq_of_lt hcol']
        omega
      omega
    | Columns =>
      simp only [renderIdx] at hidx hidx'
      have h1 : b % rowsFor n num_columns = r := by
        rw [← hidx, Nat.add_mul_mod_self_right, Nat.mod_eq_of_lt hr]
      have h2 : b % rowsFor n num_columns = r' := by
        rw [← hidx', Nat.add_mul_mod_self_right, Nat.mod_eq_of_lt hr']
      omega

/-- C5: for non-empty data rendered with `num_columns ≥ 1` columns, the
renderer's row count equals `ceil(item_count / num_columns)` exactly, the
cells emit exactly the item indices below `item_count`, and each such index
is emitted exactly once under either orientation. -/
theorem rows_law_exactly_once (orient : TabulateOrientation)
    (n num_columns : Nat) (hn : 1 ≤ n) (hc : 1 ≤ num_columns) :
    rowsFor n num_columns = (n + num_columns - 1) / num_columns
    ∧ (∀ i, i ∈ emitted_indices n (rowsFor n num_columns) num_columns orient ↔
        i < n)
    ∧ (∀ i, i < n →
        (emitted_indices n (rowsFor n num_columns) num_columns orient).count i
          = 1) :=
  ⟨rowsFor_eq_ceil n num_columns hc,
   fun i => mem_emitted_indices orient n num_columns hn hc i,
   fun i hi => List.count_eq_one_of_mem
     (emitted_indices_nodup orient n num_columns hn hc)
     ((mem_emitted_indices orient n num_columns hn hc i).mpr hi)⟩

/-- Witness for `rows_law_exactly_once` at `n = 5`, `c = 2`, ColumnMajor. -/
theorem rows_law_exactly_once_witness :
    rowsFor 5 2 = (5 + 2 - 1) / 2
    ∧ (∀ i, i ∈ emitted_indices 5 (rowsFor 5 2) 2 TabulateOrientation.Columns ↔
        i < 5)
    ∧ (∀ i, i < 5 →
        (emitted_indices 5 (rowsFor 5 2) 2 TabulateOrientation.Columns).count i
          = 1) :=
  rows_law_exactly_once TabulateOrientation.Columns 5 2 (by decide) (by decide)

/-- C6: the layout search fails with `EmptyData` exactly on the empty item
sequence, and on the empty sequence the renderer emits the empty string (a
successful, non-error result in the source). -/
theorem empty_input_behavior (len : α → Nat) (pad : α → Nat → String)
    (data : List α) (max_line_length : Nat) (orient : TabulateOrientation) :
    (get_column_config len data max_line_length orient =
      Except.error ConfigError.EmptyData ↔ data = [])
    ∧ (data = [] →
        tabulator_fmt len pad data max_line_length orient = "") := by
  constructor
  · constructor
    · intro h
      by_contra hne
      unfold get_column_config at h
      rw [if_neg (by simpa using hne)] at h
      exact absurd h (by simp)
    · intro h
      subst h
      rfl
  · intro h
    subst h
    rfl

/-- Witness for `empty_input_behavior` at the empty `Nat` list. -/
theorem empty_input_behavior_witness :
    (get_column_config (fun w => w) ([] : List Nat) 80
        TabulateOrientation.Columns =
      Except.error ConfigError.EmptyData ↔ ([] : List Nat) = [])
    ∧ (([] : List Nat) = [] →
        tabulator_fmt (fun w => w) (fun _ w => String.mk (List.replicate w ' '))
          ([] : List Nat) 80 TabulateOrientation.Columns = "") :=
  empty_input_behavior (fun w => w)
    (fun _ w => String.mk (List.replicate w ' ')) ([] : List Nat) 80
    TabulateOrientation.Columns

/-! ### The search depends on items only through their declared width -/

theorem final_configs_map (len : α → Nat) (data : List α)
    (max_line_length : Nat) (orient : TabulateOrientation) :
    final_configs len data max_line_length orient =
      final_configs (fun w => w) (data.map len) max_line_length orient := by
  unfold final_configs
  rw [List.length_map, List.enum_map, List.foldl_map]
  rfl

theorem get_column_config_map (len : α → Nat) (data : List α)
    (max_line_length : Nat) (orient : TabulateOrientation) :
    get_column_config len data max_line_length orient =
      get_column_config (fun w => w) (data.map len) max_line_length orient := by
  unfold get_column_config
  have h1 : (data.map len).isEmpty = data.isEmpty := by
    rcases data with _ | _ <;> rfl
  rw [h1, final_configs_map]

/-- C3: the width the search uses for an item is its declared display width
(`characters_long`), measured in characters.  The selected configuration
depends on the items only through `characters_long`; for the directory-entry
instance this is the number of Unicode characters of the name, not its UTF-8
byte count: the 3-character, 9-byte name `日本語` contributes width 3 and
yields exactly the configuration of a 3-character ASCII name (with budget 8,
a valid one — the 9-byte reading would have overflowed the budget). -/
theorem character_count_width :
    (∀ (α : Type) (len : α → Nat) (data : List α) (max_line_length : Nat)
        (orient : TabulateOrientation),
      get_column_config len data max_line_length orient =
        get_column_config (fun w => w) (data.map len) max_line_length orient)
    ∧ EntryData.characters_long ⟨"日本語"⟩ = 3
    ∧ ("日本語" : String).utf8ByteSize = 9
    ∧ get_column_config EntryData.characters_long [⟨"日本語"⟩] 8
        TabulateOrientation.Columns =
      get_column_config EntryData.characters_long [⟨"abc"⟩] 8
        TabulateOrientation.Columns
    ∧ get_column_config EntryData.characters_long [⟨"日本語"⟩] 8
        TabulateOrientation.Columns = Except.ok ⟨1, [3], 3, true⟩ :=
  ⟨fun _ len data max_line_length orient =>
     get_column_config_map len data max_line_length orient,
   rfl, rfl, rfl, rfl⟩

/-! ### Sum and growth facts about in-place column updates -/

theorem sum_set_of_lt (l : List Nat) (i a : Nat) (h : i < l.length) :
    (l.set i a).sum + l.getD i 0 = l.sum + a := by
  induction l generalizing i with
  | nil => simp at h
  | cons x xs ih =>
    rcases i with _ | i
    · simp [List.set]
      omega
    · simp only [List.set, List.sum_cons, List.getD_cons_succ]
      have := ih i (by simpa using h)
      omega

theorem getD_set_le (l : List Nat) (i j a : Nat) (h : l.getD i 0 ≤ a) :
    l.getD j 0 ≤ (l.set i a).getD j 0 := by
  induction l generalizing i j with
  | nil => simp [List.set]
  | cons x xs ih =>
    rcases i with _ | i
    · rcases j with _ | j
      · simpa using h
      · simp [List.set]
    · rcases j with _ | j
      · simp [List.set]
      · simp only [List.set, List.getD_cons_succ]
        exact ih i j (by simpa using h)

/-- C10: `line_len` equals the sum of `col_widths` throughout the search:
it holds for every freshly initialized candidate (all widths at
`MIN_COLUMN_WIDTH` and `line_len = num_columns * MIN_COLUMN_WIDTH`), and a
scan step preserves it — the separator is folded into the per-column widths,
no width ever shrinks, and every width stays at least `MIN_COLUMN_WIDTH`. -/
theorem line_len_sum_invariant (len : α → Nat) (max_line_length : Nat)
    (orient : TabulateOrientation) (n : Nat) (p : Nat × α)
    (config : ColumnConfiguration) (mll0 num_items : Nat)
    (hsum : config.line_len = config.col_widths.sum)
    (hmin : ∀ w ∈ config.col_widths, MIN_COLUMN_WIDTH ≤ w)
    (hlen : config.col_widths.length = config.num_columns)
    (hidx : p.1 < n) (hcols : 1 ≤ config.num_columns) (hn : 1 ≤ n) :
    (∀ cfg ∈ init_column_configs mll0 num_items MIN_COLUMN_WIDTH,
      cfg.line_len = cfg.col_widths.sum
      ∧ cfg.col_widths = List.replicate cfg.num_columns MIN_COLUMN_WIDTH
      ∧ cfg.line_len = cfg.num_columns * MIN_COLUMN_WIDTH)
    ∧ (updateConfig len max_line_length orient n p config).line_len =
        (updateConfig len max_line_length orient n p config).col_widths.sum
    ∧ (∀ w ∈ (updateConfig len max_line_length orient n p config).col_widths,
        MIN_COLUMN_WIDTH ≤ w)
    ∧ (∀ j, config.col_widths.getD j 0 ≤
        (updateConfig len max_line_length orient n p config).col_widths.getD j 0) := by
  refine ⟨?_, ?_⟩
  · intro cfg hcfg
    unfold init_column_configs at hcfg
    simp only [List.mem_map] at hcfg
    obtain ⟨nc, _, rfl⟩ := hcfg
    refine ⟨?_, rfl, rfl⟩
    simp [List.sum_replicate, Nat.smul_one_eq_cast]
  · unfold updateConfig
    rcases hval : config.valid
    · simp only [hval, Bool.not_false, ite_true]
      exact ⟨hsum, hmin, fun j => Nat.le_refl _⟩
    · simp only [hval, Bool.not_true]
      rw [if_neg Bool.false_ne_true]
      by_cases hgrow : config.col_widths.getD
          (colIdx orient n p.1 config.num_columns) 0 <
          len p.2 + (if colIdx orient n p.1 config.num_columns =
            config.num_columns - 1 then 0 else 2)
      · rw [if_pos hgrow]
        have hcib : colIdx orient n p.1 config.num_columns <
            config.col_widths.length := by
          rw [hlen]
          exact colIdx_lt orient n config.num_columns p.1 hn hcols hidx
        have hsumset := sum_set_of_lt config.col_widths
          (colIdx orient n p.1 config.num_columns)
          (len p.2 + (if colIdx orient n p.1 config.num_columns =
            config.num_columns - 1 then 0 else 2)) hcib
        have hmem : config.col_widths.getD
            (colIdx orient n p.1 config.num_columns) 0 ∈ config.col_widths := by
          rw [List.getD_eq_getElem _ _ hcib]
          exact List.getElem_mem hcib
        have hminold := hmin _ hmem
        refine ⟨?_, ?_, ?_⟩
        · dsimp only
          omega
        · intro w hw
          rcases List.mem_or_eq_of_mem_set hw with hw' | hw'
          · exact hmin w hw'
          · omega
        · intro j
          exact getD_set_le _ _ _ _ (by omega)
      · rw [if_neg hgrow]
        exact ⟨hsum, hmin, fun j => Nat.le_refl _⟩

/-- Witness for `line_len_sum_invariant` on the 2-column candidate after a
width-4 item arrives at index 0 of a 2-item scan. -/
theorem line_len_sum_invariant_witness :
    (∀ cfg ∈ init_column_configs 20 2 MIN_COLUMN_WIDTH,
      cfg.line_len = cfg.col_widths.sum
      ∧ cfg.col_widths = List.replicate cfg.num_columns MIN_COLUMN_WIDTH
      ∧ cfg.line_len = cfg.num_columns * MIN_COLUMN_WIDTH)
    ∧ (updateConfig (fun w => w) 20 TabulateOrientation.Rows 2 (0, 4)
        ⟨2, [3, 3], 6, true⟩).line_len =
        (updateConfig (fun w => w) 20 TabulateOrientation.Rows 2 (0, 4)
          ⟨2, [3, 3], 6, true⟩).col_widths.sum
    ∧ (∀ w ∈ (updateConfig (fun w => w) 20 TabulateOrientation.Rows 2 (0, 4)
        ⟨2, [3, 3], 6, true⟩).col_widths, MIN_COLUMN_WIDTH ≤ w)
    ∧ (∀ j, (⟨2, [3, 3], 6, true⟩ : ColumnConfiguration).col_widths.getD j 0 ≤
        (updateConfig (fun w => w) 20 TabulateOrientation.Rows 2 (0, 4)
          ⟨2, [3, 3], 6, true⟩).col_widths.getD j 0) :=
  line_len_sum_invariant (fun w => w) 20 TabulateOrientation.Rows 2 (0, 4)
    ⟨2, [3, 3], 6, true⟩ 20 2 rfl (by decide) rfl (by decide) (by decide)
    (by decide)
